import Mathlib

/-!
Verification of `scripts/create_icon.py`, the panning-GIF builder.

The script is a single linear procedure: load an RGBA image, validate its
dimensions (height exactly 8, width at least 8), slide an 8x8 window across
the width producing one frame per offset, assign per-frame durations with
longer holds on the first and last frame, repeat the sequence three times,
save the result as an animated GIF looping forever, and write a base64
data-URI sidecar file next to it.

The image decode/encode library (PIL) is an external collaborator that is
out of scope for the repository; its primitives (crop, paste-with-mask,
palette quantization, GIF byte serialization) are modelled here from the
specification's description of them, while every piece of control flow and
arithmetic of the script itself is translated directly from the source.
-/

/-- One RGBA pixel; channel values are bytes (0..255). -/
structure RGBA where
  r : Nat
  g : Nat
  b : Nat
  a : Nat
deriving DecidableEq

/-- The decoded source image after `Image.open(...).convert("RGBA")`:
its size and its pixel grid, stored as rows of pixels. -/
structure Image where
  width : Nat
  height : Nat
  pixels : List (List RGBA)
deriving DecidableEq

/-- Pixel of the image at column `x`, row `y` (transparent black outside
the stored grid; the script only reads in-bounds pixels). -/
def Image.px (img : Image) (x y : Nat) : RGBA :=
  (img.pixels.getD y []).getD x ⟨0, 0, 0, 0⟩

/-- PIL's rounded byte product `a*b/255`, the `MULDIV255` macro used by
`Image.paste` blending: `t := a*b + 128; ((t >> 8) + t) >> 8`. -/
def muldiv255 (a b : Nat) : Nat :=
  let t := a * b + 128
  (t / 256 + t) / 256

/-- Modelled from the spec: the external library's crop-rectangle
primitive. `img.crop((x, 0, x + 8, 8))` yields the 8x8 block whose pixel
at column `i`, row `y` is the source pixel at column `x + i`, row `y`. -/
def crop8 (img : Image) (x : Nat) : List (List RGBA) :=
  (List.range 8).map fun y => (List.range 8).map fun i => img.px (x + i) y

/-- Modelled from the spec: the external library's composite-with-mask
primitive, as used by `frame_rgb.paste(frame, (0, 0), frame)` where
`frame_rgb` is an opaque black canvas and the crop's own alpha channel is
the blend mask. Each color band is blended over black weighted by the
alpha mask with PIL's rounded division, and per the spec the composited
result has no transparency, so the alpha band is opaque. -/
def flattenPixel (p : RGBA) : RGBA :=
  { r := muldiv255 p.r p.a, g := muldiv255 p.g p.a, b := muldiv255 p.b p.a, a := 255 }

/-- Flatten an 8x8 RGBA block pixelwise over the opaque black canvas. -/
def flattenRows (rows : List (List RGBA)) : List (List RGBA) :=
  rows.map fun row => row.map flattenPixel

/-- A palette-mode ("P") frame: its color table and one palette index per
pixel in raster order. -/
structure PFrame where
  palette : List RGBA
  idx : List Nat
deriving DecidableEq, Inhabited

/-- Collect the distinct pixel values of a frame in raster order. -/
def paletteOf (px : List RGBA) : List RGBA :=
  px.foldl (fun acc c => if c ∈ acc then acc else acc ++ [c]) []

/-- Modelled from the spec: the external library's quantize-to-palette
primitive, `frame_rgb.convert("P", palette=Image.ADAPTIVE)`. The adaptive
palette is derived from the frame's own colors (an 8x8 frame has at most
64 distinct colors, so the image-derived palette is exact), and each pixel
becomes the index of its color. -/
def quantizeAdaptive (rows : List (List RGBA)) : PFrame :=
  let px := rows.flatten
  let pal := paletteOf px
  { palette := pal, idx := px.map fun c => (pal.indexOf c) }

/-- The whole per-offset frame pipeline of the loop body:
crop an 8x8 window at `x`, flatten transparency over black, quantize. -/
def mkFrame (img : Image) (x : Nat) : PFrame :=
  quantizeAdaptive (flattenRows (crop8 img x))

/-- One iteration of the panning loop: `(i, x)` comes from
`enumerate(range(width - 7))`; the frame for offset `x` is appended, and
its duration is `hold_start` for the first iteration, `hold_end` when the
window reaches the right edge, and `frame_duration` otherwise. -/
def panStep (img : Image) (frame_duration hold_start hold_end : Nat)
    (st : List PFrame × List Nat) (ix : Nat × Nat) : List PFrame × List Nat :=
  let i := ix.1
  let x := ix.2
  let dur := if i = 0 then hold_start
    else if x = img.width - 8 then hold_end
    else frame_duration
  (st.1 ++ [mkFrame img x], st.2 ++ [dur])

/-- The duration rule of the loop body as a function of the offset alone
(valid because `enumerate(range(n))` yields `i = x`). -/
def panDur (img : Image) (frame_duration hold_start hold_end x : Nat) : Nat :=
  if x = 0 then hold_start
  else if x = img.width - 8 then hold_end
  else frame_duration

/-- The single pass of the panning loop,
`for i, x in enumerate(range(width - 7))`, building
`single_pass_frames` and `single_pass_durations`. -/
def singlePass (img : Image) (frame_duration hold_start hold_end : Nat) :
    List PFrame × List Nat :=
  ((List.range (img.width - 7)).enum).foldl
    (panStep img frame_duration hold_start hold_end) ([], [])

/-- The state of the panning loop after its first `k` iterations
(the same fold stopped after `k` of the enumerated offsets). -/
def singlePassUpto (img : Image) (frame_duration hold_start hold_end k : Nat) :
    List PFrame × List Nat :=
  (((List.range (img.width - 7)).enum).take k).foldl
    (panStep img frame_duration hold_start hold_end) ([], [])

/-- Python's `list * n`: the list concatenated with itself `n` times. -/
def pyListMul (l : List α) : Nat → List α
  | 0 => []
  | n + 1 => l ++ pyListMul l n

/-- Modelled from the spec: in the animated container a loop count of `0`
denotes infinite looping, which is what `loop=0` requests from the
library's save primitive. -/
def loopForever : Nat := 0

/-- The animated output asset handed to the multi-frame save primitive:
the ordered frame list (`frames[0]` plus `append_images=frames[1:]`), the
per-frame durations, and the loop policy. -/
structure GifFile where
  frames : List PFrame
  durations : List Nat
  loop : Nat
deriving DecidableEq

/-- The failure taxonomy of the script: wrong dimensions or an empty
generated sequence. -/
inductive FailKind where
  | invalidDimensions
  | emptySequence
deriving DecidableEq

/-- A terminal failure: the process exit code passed to `sys.exit` and the
diagnostic printed just before. -/
structure Failure where
  kind : FailKind
  exitCode : Nat
  message : String
deriving DecidableEq

/-- Base64 alphabet, values 0..63. -/
def b64Alphabet : List Char :=
  "ABCDEFGHIJKLMNOPQRSTUVWXYZabcdefghijklmnopqrstuvwxyz0123456789+/".data

/-- The base64 character of a 6-bit value. -/
def b64Char (n : Nat) : Char := b64Alphabet.getD n 'A'

/-- The 6-bit value of a base64 character, if it is one. -/
def b64Val (c : Char) : Option Nat := b64Alphabet.indexOf? c

/-- RFC 4648 base64 of a byte list: groups of 3 bytes become 4 characters;
a final group of 1 or 2 bytes is padded with `=`. This models Python's
`base64.b64encode`. -/
def b64EncodeBytes : List Nat → List Char
  | [] => []
  | [b1] => [b64Char (b1 / 4), b64Char (b1 % 4 * 16), '=', '=']
  | [b1, b2] => [b64Char (b1 / 4), b64Char (b1 % 4 * 16 + b2 / 16),
      b64Char (b2 % 16 * 4), '=']
  | b1 :: b2 :: b3 :: rest =>
      b64Char (b1 / 4) :: b64Char (b1 % 4 * 16 + b2 / 16) ::
      b64Char (b2 % 16 * 4 + b3 / 64) :: b64Char (b3 % 64) :: b64EncodeBytes rest

/-- Base64 decoding of a character list back to bytes, accepting exactly
the padded form produced by the encoder. -/
def b64DecodeChars : List Char → Option (List Nat)
  | [] => some []
  | c1 :: c2 :: c3 :: c4 :: rest => do
      let v1 ← b64Val c1
      let v2 ← b64Val c2
      if c3 = '=' then
        if c4 = '=' ∧ rest = [] then some [v1 * 4 + v2 / 16] else none
      else do
        let v3 ← b64Val c3
        if c4 = '=' then
          if rest = [] then some [v1 * 4 + v2 / 16, v2 % 16 * 16 + v3 / 4] else none
        else do
          let v4 ← b64Val c4
          let tail ← b64DecodeChars rest
          some ((v1 * 4 + v2 / 16) :: (v2 % 16 * 16 + v3 / 4) :: (v3 % 4 * 64 + v4) :: tail)
  | _ => none

/-- The fixed data-URI head written before the base64 payload. -/
def dataHead : List Char := "data:image/gif;base64,".data

/-- Everything `create_panning_gif` leaves on disk on success: the animated
asset written to `output_path`, its raw encoded bytes, and the sidecar
text written to `output_path + ".txt"`. An error result produces none of
these. -/
structure Output where
  gif : GifFile
  gifBytes : List Nat
  sidecar : String
deriving DecidableEq

/-- The body of `create_panning_gif(input_path, output_path, ...)`, acting
on the already-decoded image. The GIF byte serialization is the external
library's and is passed in as `enc`. Mirrors the source line by line:
validate height then width, build the single pass, check it is nonempty,
repeat it `repeat_count = 3` times, save with `loop=0`, then base64-encode
the written bytes into the sidecar string. -/
def create_panning_gif (enc : GifFile → List Nat) (img : Image)
    (frame_duration : Nat := 50) (hold_start : Nat := 500) (hold_end : Nat := 500) :
    Except Failure Output :=
  let width := img.width
  let height := img.height
  if height ≠ 8 then
    .error ⟨.invalidDimensions, 1,
      "Error: Image must be 8 pixels tall (got " ++ toString height ++ "px)"⟩
  else if width < 8 then
    .error ⟨.invalidDimensions, 1,
      "Error: Image must be at least 8 pixels wide (got " ++ toString width ++ "px)"⟩
  else
    let sp := singlePass img frame_duration hold_start hold_end
    if sp.1 = [] then
      .error ⟨.emptySequence, 1, "Error: No frames generated"⟩
    else
      let repeat_count := 3
      let frames := pyListMul sp.1 repeat_count
      let durations := pyListMul sp.2 repeat_count
      let gif : GifFile := { frames := frames, durations := durations, loop := loopForever }
      let bytes := enc gif
      let b64 := b64EncodeBytes bytes
      .ok { gif := gif, gifBytes := bytes, sidecar := String.mk (dataHead ++ b64) }

/-- The usage text printed when too few arguments are given. -/
def usageText : List String :=
  ["Usage: python create_icon.py input.png output.gif",
   "",
   "The input PNG must be exactly 8 pixels tall.",
   "The script will pan across the width to create the animation."]

/-- Result of the command-line entry point: either the usage message plus
an exit code, or the result of running the builder. -/
inductive MainResult where
  | usageExit (exitCode : Nat) (text : List String)
  | ran (result : Except Failure Output)

/-- The `__main__` block: `sys.argv` (program name included) must have at
least 3 entries, otherwise usage is printed and the process exits with 1;
then `create_panning_gif(sys.argv[1], sys.argv[2])` runs with the timing
parameters left at their defaults. `load` is the external decode step
turning the input path into an image. -/
def mainEntry (enc : GifFile → List Nat) (load : String → Image)
    (argv : List String) : MainResult :=
  if argv.length < 3 then
    .usageExit 1 usageText
  else
    .ran (create_panning_gif enc (load (argv.getD 1 "")))

/-- A concrete 9x8 test image (all pixels half-transparent teal). -/
def testImg : Image :=
  { width := 9, height := 8,
    pixels := List.replicate 8 (List.replicate 9 ⟨10, 200, 150, 128⟩) }

/-- A concrete 8x8 (minimum width) test image. -/
def testImg8 : Image :=
  { width := 8, height := 8,
    pixels := List.replicate 8 (List.replicate 8 ⟨255, 0, 0, 255⟩) }

/-- A concrete 9x9 image (wrong height). -/
def badTall : Image :=
  { width := 9, height := 9,
    pixels := List.replicate 9 (List.replicate 9 ⟨0, 0, 0, 255⟩) }

/-- A trivial byte serializer for witnesses: the GIF89a signature. -/
def testEnc : GifFile → List Nat := fun _ => [71, 73, 70, 56, 57, 97]

/-- The output `create_panning_gif testEnc testImg` actually produces,
spelled out for use as a concrete witness value. -/
def testOut : Output :=
  { gif := { frames := pyListMul (singlePass testImg 50 500 500).1 3,
             durations := pyListMul (singlePass testImg 50 500 500).2 3,
             loop := loopForever },
    gifBytes := [71, 73, 70, 56, 57, 97],
    sidecar := String.mk (dataHead ++ b64EncodeBytes [71, 73, 70, 56, 57, 97]) }

/-! ## Helper lemmas -/

theorem enumFrom_range' (s n : Nat) :
    (List.range' s n).enumFrom s = (List.range' s n).map fun x => (x, x) := by
  induction n generalizing s with
  | zero => simp
  | succ n ih => simp [List.range'_succ, List.enumFrom, ih]

theorem enum_range (n : Nat) :
    (List.range n).enum = (List.range n).map fun x => (x, x) := by
  rw [List.range_eq_range']
  exact enumFrom_range' 0 n

theorem panStep_foldl (img : Image) (fd hs he : Nat) (l : List Nat)
    (acc : List PFrame × List Nat) :
    (l.map fun x => (x, x)).foldl (panStep img fd hs he) acc =
      (acc.1 ++ l.map (mkFrame img), acc.2 ++ l.map (panDur img fd hs he)) := by
  induction l generalizing acc with
  | nil => simp
  | cons p t ih => simp [panStep, panDur, ih]

theorem singlePass_eq (img : Image) (fd hs he : Nat) :
    singlePass img fd hs he =
      ((List.range (img.width - 7)).map (mkFrame img),
       (List.range (img.width - 7)).map (panDur img fd hs he)) := by
  unfold singlePass
  rw [enum_range, panStep_foldl]
  simp

theorem panStep_foldl_len (img : Image) (fd hs he : Nat) (l : List (Nat × Nat))
    (acc : List PFrame × List Nat) (h : acc.1.length = acc.2.length) :
    (l.foldl (panStep img fd hs he) acc).1.length =
      (l.foldl (panStep img fd hs he) acc).2.length := by
  induction l generalizing acc with
  | nil => exact h
  | cons p t ih => exact ih _ (by simp [panStep, h])

theorem b64Val_b64Char : ∀ n < 64, b64Val (b64Char n) = some n := by decide

theorem b64Char_ne_pad : ∀ n < 64, b64Char n ≠ '=' := by decide

theorem b64Char_ne_lf (n : Nat) : b64Char n ≠ '\n' := by
  by_cases h : n < 64
  · exact (by decide : ∀ m < 64, b64Char m ≠ '\n') n h
  · unfold b64Char
    rw [List.getD_eq_default]
    · decide
    · have : b64Alphabet.length = 64 := rfl
      omega

theorem b64_roundtrip (bs : List Nat) (hb : ∀ b ∈ bs, b < 256) :
    b64DecodeChars (b64EncodeBytes bs) = some bs := by
  induction bs using b64EncodeBytes.induct with
  | case1 => rfl
  | case2 b1 =>
      have h1 : b1 < 256 := hb b1 (by simp)
      have e1 := b64Val_b64Char (b1 / 4) (by omega)
      have e2 := b64Val_b64Char (b1 % 4 * 16) (by omega)
      simp [b64EncodeBytes, b64DecodeChars, e1, e2]
      omega
  | case3 b1 b2 =>
      have h1 : b1 < 256 := hb b1 (by simp)
      have h2 : b2 < 256 := hb b2 (by simp)
      have e1 := b64Val_b64Char (b1 / 4) (by omega)
      have e2 := b64Val_b64Char (b1 % 4 * 16 + b2 / 16) (by omega)
      have e3 := b64Val_b64Char (b2 % 16 * 4) (by omega)
      have n3 := b64Char_ne_pad (b2 % 16 * 4) (by omega)
      simp [b64EncodeBytes, b64DecodeChars, e1, e2, e3, n3]
      omega
  | case4 b1 b2 b3 rest ih =>
      have h1 : b1 < 256 := hb b1 (by simp)
      have h2 : b2 < 256 := hb b2 (by simp)
      have h3 : b3 < 256 := hb b3 (by simp)
      have hrest : ∀ b ∈ rest, b < 256 := fun b hbm => hb b (by simp [hbm])
      have e1 := b64Val_b64Char (b1 / 4) (by omega)
      have e2 := b64Val_b64Char (b1 % 4 * 16 + b2 / 16) (by omega)
      have e3 := b64Val_b64Char (b2 % 16 * 4 + b3 / 64) (by omega)
      have e4 := b64Val_b64Char (b3 % 64) (by omega)
      have n3 := b64Char_ne_pad (b2 % 16 * 4 + b3 / 64) (by omega)
      have n4 := b64Char_ne_pad (b3 % 64) (by omega)
      simp [b64EncodeBytes, b64DecodeChars, e1, e2, e3, e4, n3, n4, ih hrest]
      omega

theorem b64Encode_ne_lf (bs : List Nat) : ∀ c ∈ b64EncodeBytes bs, c ≠ '\n' := by
  induction bs using b64EncodeBytes.induct with
  | case1 => simp [b64EncodeBytes]
  | case2 b1 =>
      intro c hc
      simp [b64EncodeBytes] at hc
      rcases hc with h | h | h <;> subst h <;>
        first | exact b64Char_ne_lf _ | decide
  | case3 b1 b2 =>
      intro c hc
      simp [b64EncodeBytes] at hc
      rcases hc with h | h | h | h <;> subst h <;>
        first | exact b64Char_ne_lf _ | decide
  | case4 b1 b2 b3 rest ih =>
      intro c hc
      simp [b64EncodeBytes] at hc
      rcases hc with h | h | h | h | h
      · subst h; exact b64Char_ne_lf _
      · subst h; exact b64Char_ne_lf _
      · subst h; exact b64Char_ne_lf _
      · subst h; exact b64Char_ne_lf _
      · exact ih c h

theorem dataHead_ne_lf : ∀ c ∈ dataHead, c ≠ '\n' := by decide

/-! ## Claim theorems -/

/-- C1: for every decoded input image of height 8 and width `w ≥ 8`, the
single pass generates exactly `w - 7` frames, one for each crop offset `x`
from `0` to `w - 8` inclusive, in increasing order of `x` (the frame list
is exactly the pipeline mapped over `range (w - 7)`). -/
theorem C1_single_pass_frames (img : Image) (fd hs he : Nat)
    (hh : img.height = 8) (hw : 8 ≤ img.width) :
    (singlePass img fd hs he).1 = (List.range (img.width - 7)).map (mkFrame img) ∧
    (singlePass img fd hs he).1.length = img.width - 7 := by
  rw [singlePass_eq]
  simp

theorem C1_witness :
    testImg.height = 8 ∧ 8 ≤ testImg.width ∧
      ((singlePass testImg 50 500 500).1 =
        (List.range (testImg.width - 7)).map (mkFrame testImg) ∧
       (singlePass testImg 50 500 500).1.length = testImg.width - 7) :=
  ⟨rfl, by decide, C1_single_pass_frames testImg 50 500 500 rfl (by decide)⟩

/-- C2: the single-pass duration at index `i` (crop offset `x = i`) is
`hold_start` for `i = 0`, `hold_end` for `x = w - 8` with `i ≠ 0`, and
`frame_duration` otherwise; for `w = 8` the single frame gets `hold_start`,
the first-frame rule taking precedence over the last-frame rule. -/
theorem C2_durations (img : Image) (fd hs he : Nat)
    (hh : img.height = 8) (hw : 8 ≤ img.width) :
    (∀ i, i < img.width - 7 →
      (singlePass img fd hs he).2.getD i 0 =
        (if i = 0 then hs else if i = img.width - 8 then he else fd)) ∧
    (img.width = 8 → (singlePass img fd hs he).2 = [hs]) := by
  constructor
  · intro i hi
    rw [singlePass_eq]
    simp [List.getD_eq_getElem?_getD, List.getElem?_map, List.getElem?_range, hi, panDur]
  · intro h8
    rw [singlePass_eq]
    have hr : List.range 1 = [0] := rfl
    simp [h8, hr, panDur]

theorem C2_witness :
    testImg8.height = 8 ∧ 8 ≤ testImg8.width ∧
      ((∀ i, i < testImg8.width - 7 →
        (singlePass testImg8 50 500 111).2.getD i 0 =
          (if i = 0 then 500 else if i = testImg8.width - 8 then 111 else 50)) ∧
       (testImg8.width = 8 → (singlePass testImg8 50 500 111).2 = [500])) :=
  ⟨rfl, by decide, C2_durations testImg8 50 500 111 rfl (by decide)⟩

/-- C3: on a valid input the final sequence is the single pass repeated 3
times back-to-back — `3 * (w - 7)` frames in total, the durations array
concatenated 3 times in order — and the container loop policy is infinite
looping. -/
theorem C3_repeat (enc : GifFile → List Nat) (img : Image) (fd hs he : Nat)
    (hh : img.height = 8) (hw : 8 ≤ img.width) :
    ∃ out, create_panning_gif enc img fd hs he = .ok out ∧
      out.gif.frames =
        (singlePass img fd hs he).1 ++ (singlePass img fd hs he).1 ++
          (singlePass img fd hs he).1 ∧
      out.gif.frames.length = 3 * (img.width - 7) ∧
      out.gif.durations =
        (singlePass img fd hs he).2 ++ (singlePass img fd hs he).2 ++
          (singlePass img fd hs he).2 ∧
      out.gif.loop = loopForever := by
  have hne : (singlePass img fd hs he).1 ≠ [] := by
    rw [singlePass_eq]
    simp
    omega
  simp only [create_panning_gif]
  rw [if_neg (by omega), if_neg (by omega), if_neg hne]
  refine ⟨_, rfl, ?_, ?_, ?_, rfl⟩
  · simp [pyListMul]
  · have hlen : (singlePass img fd hs he).1.length = img.width - 7 := by
      rw [singlePass_eq]; simp
    simp [pyListMul, hlen]
    omega
  · simp [pyListMul]

theorem C3_witness :
    testImg.height = 8 ∧ 8 ≤ testImg.width ∧
      (∃ out, create_panning_gif testEnc testImg 50 500 500 = .ok out ∧
        out.gif.frames =
          (singlePass testImg 50 500 500).1 ++ (singlePass testImg 50 500 500).1 ++
            (singlePass testImg 50 500 500).1 ∧
        out.gif.frames.length = 3 * (testImg.width - 7) ∧
        out.gif.durations =
          (singlePass testImg 50 500 500).2 ++ (singlePass testImg 50 500 500).2 ++
            (singlePass testImg 50 500 500).2 ∧
        out.gif.loop = loopForever) :=
  ⟨rfl, by decide, C3_repeat testEnc testImg 50 500 500 rfl (by decide)⟩

/-- C4: if the decoded image's height is not exactly 8, or its width is
below 8, validation fails with an `InvalidDimensions` failure carrying
exit code 1 and one of the two diagnostic messages, and no success output
(hence neither of the two files) is ever produced. -/
theorem C4_validation_failure (enc : GifFile → List Nat) (img : Image) (fd hs he : Nat)
    (h : img.height ≠ 8 ∨ img.width < 8) :
    ∃ f, create_panning_gif enc img fd hs he = .error f ∧
      f.kind = FailKind.invalidDimensions ∧ f.exitCode = 1 ∧
      (f.message =
          "Error: Image must be 8 pixels tall (got " ++ toString img.height ++ "px)" ∨
       f.message =
          "Error: Image must be at least 8 pixels wide (got " ++ toString img.width ++ "px)") ∧
      ∀ out, create_panning_gif enc img fd hs he ≠ .ok out := by
  have key : ∀ fval, create_panning_gif enc img fd hs he = .error fval →
      ∀ out, create_panning_gif enc img fd hs he ≠ .ok out := by
    intro fval hE out hc
    rw [hE] at hc
    exact Except.noConfusion hc
  by_cases hh : img.height = 8
  · have hw : img.width < 8 := by tauto
    have hE : create_panning_gif enc img fd hs he =
        .error ⟨.invalidDimensions, 1,
          "Error: Image must be at least 8 pixels wide (got " ++ toString img.width ++ "px)"⟩ := by
      simp only [create_panning_gif]
      rw [if_neg (by omega), if_pos hw]
    exact ⟨_, hE, rfl, rfl, Or.inr rfl, key _ hE⟩
  · have hE : create_panning_gif enc img fd hs he =
        .error ⟨.invalidDimensions, 1,
          "Error: Image must be 8 pixels tall (got " ++ toString img.height ++ "px)"⟩ := by
      simp only [create_panning_gif]
      rw [if_pos hh]
    exact ⟨_, hE, rfl, rfl, Or.inl rfl, key _ hE⟩

theorem C4_witness :
    (badTall.height ≠ 8 ∨ badTall.width < 8) ∧
      (∃ f, create_panning_gif testEnc badTall 50 500 500 = .error f ∧
        f.kind = FailKind.invalidDimensions ∧ f.exitCode = 1 ∧
        (f.message =
            "Error: Image must be 8 pixels tall (got " ++ toString badTall.height ++ "px)" ∨
         f.message =
            "Error: Image must be at least 8 pixels wide (got " ++
              toString badTall.width ++ "px)") ∧
        ∀ out, create_panning_gif testEnc badTall 50 500 500 ≠ .ok out) :=
  ⟨Or.inl (by decide), C4_validation_failure testEnc badTall 50 500 500 (Or.inl (by decide))⟩

/-- C5: on success the sidecar text is exactly the fixed prefix
`data:image/gif;base64,` followed by the base64 encoding of the raw bytes
of the written asset; stripping the 22-character prefix and base64-decoding
reproduces those bytes exactly, and the text contains no newline. -/
theorem C5_sidecar_roundtrip (enc : GifFile → List Nat) (img : Image)
    (fd hs he : Nat) (out : Output)
    (hok : create_panning_gif enc img fd hs he = .ok out)
    (hb : ∀ b ∈ out.gifBytes, b < 256) :
    out.sidecar = String.mk (dataHead ++ b64EncodeBytes out.gifBytes) ∧
    b64DecodeChars (out.sidecar.data.drop 22) = some out.gifBytes ∧
    ∀ c ∈ out.sidecar.data, c ≠ '\n' := by
  simp only [create_panning_gif] at hok
  split at hok
  · simp at hok
  · split at hok
    · simp at hok
    · split at hok
      · simp at hok
      · injection hok with h
        subst h
        refine ⟨rfl, ?_, ?_⟩
        · show b64DecodeChars ((dataHead ++ b64EncodeBytes _).drop 22) = _
          rw [show (22 : Nat) = dataHead.length from rfl, List.drop_left]
          exact b64_roundtrip _ hb
        · intro c hc
          rcases List.mem_append.1 hc with hm | hm
          · exact dataHead_ne_lf c hm
          · exact b64Encode_ne_lf _ c hm

theorem C5_witness :
    create_panning_gif testEnc testImg 50 500 500 = .ok testOut ∧
      (∀ b ∈ testOut.gifBytes, b < 256) ∧
      (testOut.sidecar = String.mk (dataHead ++ b64EncodeBytes testOut.gifBytes) ∧
       b64DecodeChars (testOut.sidecar.data.drop 22) = some testOut.gifBytes ∧
       ∀ c ∈ testOut.sidecar.data, c ≠ '\n') :=
  ⟨rfl, by decide,
    C5_sidecar_roundtrip testEnc testImg 50 500 500 testOut rfl (by decide)⟩

/-- C6: at every point of the single pass, after it, and after the 3-fold
repetition, the frame list and the duration list have the same length. -/
theorem C6_lengths_invariant (img : Image) (fd hs he : Nat) :
    (∀ k, (singlePassUpto img fd hs he k).1.length =
      (singlePassUpto img fd hs he k).2.length) ∧
    (singlePass img fd hs he).1.length = (singlePass img fd hs he).2.length ∧
    (pyListMul (singlePass img fd hs he).1 3).length =
      (pyListMul (singlePass img fd hs he).2 3).length := by
  have hfull : (singlePass img fd hs he).1.length = (singlePass img fd hs he).2.length := by
    unfold singlePass
    exact panStep_foldl_len _ _ _ _ _ _ rfl
  refine ⟨?_, hfull, ?_⟩
  · intro k
    unfold singlePassUpto
    exact panStep_foldl_len _ _ _ _ _ _ rfl
  · simp [pyListMul, hfull]

/-- C7: the frame generated for crop offset `x` is the 8x8 region at
offset `x` composited over an opaque black canvas with the crop's own
alpha as the blend mask — leaving every pixel fully opaque — and then
quantized to the adaptive palette. -/
theorem C7_frame_pipeline (img : Image) (fd hs he x : Nat)
    (hx : x < img.width - 7) :
    (singlePass img fd hs he).1.getD x default =
      quantizeAdaptive (flattenRows (crop8 img x)) ∧
    ∀ row ∈ flattenRows (crop8 img x), ∀ p ∈ row, p.a = 255 := by
  constructor
  · rw [singlePass_eq]
    simp [List.getD_eq_getElem?_getD, List.getElem?_map, List.getElem?_range, hx, mkFrame]
  · intro row hrow p hp
    simp only [flattenRows, List.mem_map] at hrow
    obtain ⟨r0, _, rfl⟩ := hrow
    simp only [List.mem_map] at hp
    obtain ⟨q, _, rfl⟩ := hp
    rfl

theorem C7_witness :
    1 < testImg.width - 7 ∧
      ((singlePass testImg 50 500 500).1.getD 1 default =
        quantizeAdaptive (flattenRows (crop8 testImg 1)) ∧
       ∀ row ∈ flattenRows (crop8 testImg 1), ∀ p ∈ row, p.a = 255) :=
  ⟨by decide, C7_frame_pipeline testImg 50 500 500 1 (by decide)⟩

/-- C8: the defensive empty-sequence check exists in the code, and its
failure branch is unreachable under the validated preconditions: with
height 8 and width at least 8 the single pass is nonempty, so no run ever
returns the `EmptySequence` failure. -/
theorem C8_empty_unreachable (enc : GifFile → List Nat) (img : Image)
    (fd hs he : Nat) (hh : img.height = 8) (hw : 8 ≤ img.width) :
    (singlePass img fd hs he).1 ≠ [] ∧
    ∀ f, create_panning_gif enc img fd hs he = .error f →
      f.kind ≠ FailKind.emptySequence := by
  have hne : (singlePass img fd hs he).1 ≠ [] := by
    rw [singlePass_eq]
    simp
    omega
  refine ⟨hne, ?_⟩
  intro f hf
  simp only [create_panning_gif] at hf
  rw [if_neg (by omega), if_neg (by omega), if_neg hne] at hf
  exact Except.noConfusion hf

theorem C8_witness :
    testImg.height = 8 ∧ 8 ≤ testImg.width ∧
      ((singlePass testImg 50 500 500).1 ≠ [] ∧
       ∀ f, create_panning_gif testEnc testImg 50 500 500 = .error f →
         f.kind ≠ FailKind.emptySequence) :=
  ⟨rfl, by decide, C8_empty_unreachable testEnc testImg 50 500 500 rfl (by decide)⟩

/-- C9: the command-line entry point requires two positional arguments
(`sys.argv` of length at least 3 with the program name); with fewer it
prints the usage text and exits with status 1, and otherwise it runs the
builder with the timing parameters fixed at their defaults 50/500/500 —
no flag can alter them. -/
theorem C9_cli (enc : GifFile → List Nat) (load : String → Image)
    (argv : List String) :
    (argv.length < 3 → mainEntry enc load argv = .usageExit 1 usageText) ∧
    (3 ≤ argv.length →
      mainEntry enc load argv =
        .ran (create_panning_gif enc (load (argv.getD 1 "")) 50 500 500)) := by
  constructor
  · intro h
    unfold mainEntry
    rw [if_pos h]
  · intro h
    unfold mainEntry
    rw [if_neg (by omega)]

theorem C9_witness :
    mainEntry testEnc (fun _ => testImg) ["create_icon.py"] = .usageExit 1 usageText ∧
    mainEntry testEnc (fun _ => testImg) ["create_icon.py", "strip.png", "icon.gif"] =
      .ran (create_panning_gif testEnc testImg 50 500 500) :=
  ⟨(C9_cli testEnc (fun _ => testImg) ["create_icon.py"]).1 (by decide),
   (C9_cli testEnc (fun _ => testImg) ["create_icon.py", "strip.png", "icon.gif"]).2
     (by decide)⟩

/-- C10: the builder is deterministic — two runs over images with the same
decoded content (same width, height and pixels) and the same serializer
and timing parameters produce identical results, frames, durations and
sidecar text included; no randomness or run-dependent state exists. -/
theorem C10_deterministic (enc : GifFile → List Nat) (img1 img2 : Image)
    (fd hs he : Nat) (hw : img1.width = img2.width)
    (hh : img1.height = img2.height) (hp : img1.pixels = img2.pixels) :
    create_panning_gif enc img1 fd hs he = create_panning_gif enc img2 fd hs he := by
  cases img1
  cases img2
  cases hw
  cases hh
  cases hp
  rfl

theorem C10_witness :
    testImg.width =
      (Image.mk 9 8 (List.replicate 8 (List.replicate 9 ⟨10, 200, 150, 128⟩))).width ∧
    create_panning_gif testEnc testImg 50 500 500 =
      create_panning_gif testEnc
        (Image.mk 9 8 (List.replicate 8 (List.replicate 9 ⟨10, 200, 150, 128⟩))) 50 500 500 :=
  ⟨rfl, C10_deterministic testEnc testImg
    (Image.mk 9 8 (List.replicate 8 (List.replicate 9 ⟨10, 200, 150, 128⟩)))
    50 500 500 rfl rfl rfl⟩
